import Mathlib

/-!
Verification development for the AirBridge peer-to-peer file transfer
application (React client `client/src/App.jsx` and Socket.io signaling
server `server/index.js`).

The shallow embedding below models, from the source:
  * the sender's fixed-size chunking loop (`sendFileDirectly` / `sendNextChunk`),
  * the receiver's data handler (`peer.on('data')`), including the
    JSON-first payload classification and reassembly
    (`assembleAndDownloadFile`),
  * the connection state machine (reconnection logic `attemptReconnection`,
    the `peer.on('error')` / `peer.on('close')` handlers, the Leave button
    handler and `handlePeerDisconnection`),
  * the inbound signal handler (`newSocket.on('signal')`) with its ICE
    candidate queue,
  * the role assignment rule (`newSocket.on('room-users')` on the client,
    `socket.on('join-room')` on the server).

Event-callback control flow is represented as explicit step functions on
state records.  A React state setter is modelled as a write to the
corresponding field (the value later renders and the UI see); reads of
`useRef` cells are always current, while a `useState` value read inside
the mount-time handler closures is the value captured at the first
render (see `capturedConnectionState`).
Buffers/byte sequences are `List Nat` (one `Nat` per byte).
-/

namespace AirBridge

/-- `CHUNK_SIZE = 64 * 1024` from `App.jsx`. -/
def CHUNK_SIZE : Nat := 64 * 1024

/-- `MAX_RECONNECT_ATTEMPTS = 3` from `App.jsx`. -/
def MAX_RECONNECT_ATTEMPTS : Nat := 3

/-! ## Sender-side chunking

`sendNextChunk` slices `arrayBuffer.slice(offset, offset + CHUNK_SIZE)`
and advances `offset` by the chunk's byte length until
`offset >= arrayBuffer.byteLength`.  We model the sequence of produced
chunks.  The recursion uses the input length as structural fuel so the
definition evaluates in the kernel; one unit of fuel is spent per chunk,
which suffices whenever the chunk size is positive. -/

def chunkFileF : Nat → Nat → List Nat → List (List Nat)
  | 0, _, _ => []
  | fuel + 1, c, data =>
    if data = [] then []
    else data.take c :: chunkFileF fuel c (data.drop c)

/-- The list of chunks the sender emits for file content `data`. -/
def chunkFile (c : Nat) (data : List Nat) : List (List Nat) :=
  chunkFileF data.length c data

/-- Sizes-only version of the chunk sequence: the byte lengths the peer
observes, computed from the total size alone. -/
def chunkSizesF : Nat → Nat → Nat → List Nat
  | 0, _, _ => []
  | fuel + 1, c, n =>
    if n = 0 then []
    else min c n :: chunkSizesF fuel c (n - c)

def chunkSizes (c : Nat) (n : Nat) : List Nat :=
  chunkSizesF n c n

theorem chunkFileF_join (fuel : Nat) :
    ∀ (c : Nat) (data : List Nat), data.length ≤ fuel → 1 ≤ c →
      (chunkFileF fuel c data).flatten = data := by
  induction fuel with
  | zero =>
    intro c data hlen _
    have : data = [] := List.length_eq_zero.mp (Nat.le_zero.mp hlen)
    simp [this, chunkFileF]
  | succ fuel ih =>
    intro c data hlen hc
    by_cases hd : data = []
    · simp [hd, chunkFileF]
    · have hpos : 0 < data.length := List.length_pos.mpr hd
      have hdrop : (data.drop c).length ≤ fuel := by
        have : (data.drop c).length = data.length - c := data.length_drop c
        omega
      simp only [chunkFileF, hd, if_false, List.flatten_cons]
      rw [ih c (data.drop c) hdrop hc, List.take_append_drop]

/-- Round-trip at the level of pure chunking: concatenating the emitted
chunks in order reproduces the file content. -/
theorem chunkFile_join (c : Nat) (data : List Nat) (hc : 1 ≤ c) :
    (chunkFile c data).flatten = data :=
  chunkFileF_join data.length c data (le_refl _) hc

theorem chunkFileF_map_length (fuel : Nat) :
    ∀ (c : Nat) (data : List Nat),
      (chunkFileF fuel c data).map List.length = chunkSizesF fuel c data.length := by
  induction fuel with
  | zero => intro c data; simp [chunkFileF, chunkSizesF]
  | succ fuel ih =>
    intro c data
    by_cases hd : data = []
    · simp [hd, chunkFileF, chunkSizesF]
    · have hlen : data.length ≠ 0 := fun h => hd (List.length_eq_zero.mp h)
      simp only [chunkFileF, hd, if_false, chunkSizesF, hlen, List.map_cons]
      rw [ih c (data.drop c), data.length_take c, data.length_drop c]

/-- The chunk lengths depend only on the total size. -/
theorem chunkFile_map_length (c : Nat) (data : List Nat) :
    (chunkFile c data).map List.length = chunkSizes c data.length := by
  unfold chunkFile chunkSizes
  exact chunkFileF_map_length data.length c data

theorem chunkFileF_ne_nil (fuel c : Nat) (data : List Nat)
    (hd : data ≠ []) (hf : 1 ≤ fuel) : chunkFileF fuel c data ≠ [] := by
  cases fuel with
  | zero => omega
  | succ fuel => simp [chunkFileF, hd]

theorem chunkFile_ne_nil (c : Nat) (data : List Nat) (hd : data ≠ []) :
    chunkFile c data ≠ [] := by
  have : 1 ≤ data.length := by
    have := List.length_pos.mpr hd; omega
  exact chunkFileF_ne_nil data.length c data hd this

theorem chunkFileF_replicate (fuel : Nat) :
    ∀ (c n x : Nat),
      chunkFileF fuel c (List.replicate n x)
        = (chunkSizesF fuel c n).map (fun m => List.replicate m x) := by
  induction fuel with
  | zero => intro c n x; simp [chunkFileF, chunkSizesF]
  | succ fuel ih =>
    intro c n x
    by_cases hn : n = 0
    · simp [hn, chunkFileF, chunkSizesF]
    · have hne : List.replicate n x ≠ [] := by
        simp [List.replicate_eq_nil_iff, hn]
      simp only [chunkFileF, hne, if_false, chunkSizesF, hn, List.map_cons]
      rw [List.take_replicate, List.drop_replicate, ih c (n - c) x]

/-- Chunking a constant file yields constant chunks of the computed sizes. -/
theorem chunkFile_replicate (c n x : Nat) :
    chunkFile c (List.replicate n x)
      = (chunkSizes c n).map (fun m => List.replicate m x) := by
  unfold chunkFile chunkSizes
  rw [List.length_replicate]
  exact chunkFileF_replicate n c n x

/-- The chunk sizes sum to the file size. -/
theorem chunkFile_sum_length (c : Nat) (data : List Nat) (hc : 1 ≤ c) :
    ((chunkFile c data).map List.length).sum = data.length := by
  rw [← List.length_flatten, chunkFile_join c data hc]

/-! ## Receiver-side payload classification

`peer.on('data')` first attempts `JSON.parse(data.toString())`; on success
it inspects `message.type`, and any exception (a parse failure, or the
`TypeError` thrown by reading `.type` when the parsed value is `null`)
falls into the `catch` block that treats the payload as a raw file chunk.

`JSON.parse` is a platform builtin; we model it by an executable parser
over the payload's bytes implementing the full JSON grammar (ECMA-404):
`null`/`true`/`false`, numbers with optional sign, fraction and exponent
and the no-leading-zero rule, strings with the eight escapes and
`\uXXXX` (unescaped into code-unit values) and rejection of raw control
bytes, arrays, nested objects, and the four whitespace bytes.
Working on bytes rather than on the UTF-8 decode (`data.toString()`)
preserves the classification exactly: the delimiter bytes `"` (34),
`\` (92) and the control bytes below 32 are plain ASCII and are never
absorbed into a multibyte UTF-8 sequence, so string boundaries, escapes
and control-character errors coincide; any byte at or above 128 outside
a string decodes to a non-ASCII code point (or U+FFFD), which the JSON
grammar rejects there, and inside a string it decodes to an always-legal
string character — both matching the byte-level rules below.
String contents are stored as bytes (escapes resolved to code units);
since `'metadata'` is pure ASCII and UTF-8 decoding maps a byte string
to `"metadata"` only when it is those ASCII bytes themselves, the
`message.type === 'metadata'` comparison is exact.
Integral number literals are kept exactly as integers (the program
stores IEEE doubles; the two agree on every integer below 2^53, which
covers every constructible file size); non-integral literals are kept
as an uninterpreted token, and no claim depends on their numeric value.
As in `JSON.parse`, the last of duplicate object keys wins. -/

/-- A parsed JSON value.  `numNonInt` carries the raw token of a number
with a fraction or exponent part. -/
inductive Json where
  | null
  | bool (b : Bool)
  | num (z : Int)
  | numNonInt (lit : List Nat)
  | str (s : List Nat)
  | arr (elems : List Json)
  | obj (members : List (List Nat × Json))

/-- JSON whitespace bytes (space, tab, LF, CR) — exactly the four
`JSON.parse` accepts. -/
def isWsB (b : Nat) : Bool := b = 32 || b = 9 || b = 10 || b = 13

def skipWs : List Nat → List Nat
  | [] => []
  | b :: rest => if isWsB b then skipWs rest else b :: rest

def isDigitB (b : Nat) : Bool := 48 ≤ b && b ≤ 57

/-- Split off the longest leading run of decimal digits. -/
def takeDigits : List Nat → List Nat × List Nat
  | [] => ([], [])
  | b :: rest =>
    if isDigitB b then
      let p := takeDigits rest
      (b :: p.1, p.2)
    else ([], b :: rest)

/-- Numeric value of a digit-byte string (most significant first). -/
def digitsToNat (l : List Nat) : Nat :=
  l.foldl (fun acc b => acc * 10 + (b - 48)) 0

/-- Value of a hexadecimal digit byte. -/
def parseHex (b : Nat) : Option Nat :=
  if 48 ≤ b ∧ b ≤ 57 then some (b - 48)
  else if 65 ≤ b ∧ b ≤ 70 then some (b - 55)
  else if 97 ≤ b ∧ b ≤ 102 then some (b - 87)
  else none

/-- String contents after the opening quote: unescape the eight JSON
escapes and `\uXXXX` into code-unit values, keep other bytes of value
at least 32, reject raw control bytes, bad escapes and an unterminated
string.  Returns the contents and the rest after the closing quote. -/
def takeStr : List Nat → Option (List Nat × List Nat)
  | [] => none
  | b :: rest =>
    if b = 34 then some ([], rest)
    else if b = 92 then
      match rest with
      | [] => none
      | e :: rest2 =>
        if e = 34 ∨ e = 92 ∨ e = 47 then
          (takeStr rest2).map (fun p => (e :: p.1, p.2))
        else if e = 98 then (takeStr rest2).map (fun p => (8 :: p.1, p.2))
        else if e = 102 then (takeStr rest2).map (fun p => (12 :: p.1, p.2))
        else if e = 110 then (takeStr rest2).map (fun p => (10 :: p.1, p.2))
        else if e = 114 then (takeStr rest2).map (fun p => (13 :: p.1, p.2))
        else if e = 116 then (takeStr rest2).map (fun p => (9 :: p.1, p.2))
        else if e = 117 then
          match rest2 with
          | h1 :: h2 :: h3 :: h4 :: rest3 =>
            match parseHex h1, parseHex h2, parseHex h3, parseHex h4 with
            | some v1, some v2, some v3, some v4 =>
              (takeStr rest3).map
                (fun p => ((((v1 * 16 + v2) * 16 + v3) * 16 + v4) :: p.1, p.2))
            | _, _, _, _ => none
          | _ => none
        else none
    else if b < 32 then none
    else (takeStr rest).map (fun p => (b :: p.1, p.2))

/-- The integer part of a number: `0` alone, or a nonzero digit followed
by digits (the JSON no-leading-zero rule; a spurious following digit is
left in the rest, where the surrounding grammar rejects it exactly as
`JSON.parse` does on inputs like `007`). -/
def parseIntPart : List Nat → Option (List Nat × List Nat)
  | [] => none
  | b :: r =>
    if b = 48 then some ([48], r)
    else if 49 ≤ b ∧ b ≤ 57 then
      let p := takeDigits r
      some (b :: p.1, p.2)
    else none

/-- A fraction part `.digits` when present and well-formed here. -/
def parseFrac : List Nat → Option (List Nat × List Nat)
  | [] => none
  | b :: r =>
    if b = 46 then
      let p := takeDigits r
      if p.1 = [] then none else some (46 :: p.1, p.2)
    else none

/-- An exponent part `[eE][+-]?digits` when present and well-formed here. -/
def parseExp : List Nat → Option (List Nat × List Nat)
  | [] => none
  | b :: r =>
    if b = 101 ∨ b = 69 then
      match r with
      | [] => none
      | s :: r2 =>
        if s = 43 ∨ s = 45 then
          let p := takeDigits r2
          if p.1 = [] then none else some (b :: s :: p.1, p.2)
        else
          let p := takeDigits r
          if p.1 = [] then none else some (b :: p.1, p.2)
    else none

/-- A number after an optional leading minus (already consumed when
`neg` is set): exact integer for a pure-integer token, the raw token
otherwise. -/
def parseNumAfterSign (neg : Bool) (l : List Nat) : Option (Json × List Nat) :=
  match parseIntPart l with
  | none => none
  | some ip =>
    let sign : List Nat := if neg then [45] else []
    match parseFrac ip.2 with
    | some fp =>
      match parseExp fp.2 with
      | some ep => some (.numNonInt (sign ++ ip.1 ++ fp.1 ++ ep.1), ep.2)
      | none => some (.numNonInt (sign ++ ip.1 ++ fp.1), fp.2)
    | none =>
      match parseExp ip.2 with
      | some ep => some (.numNonInt (sign ++ ip.1 ++ ep.1), ep.2)
      | none =>
        some (.num (if neg then -(digitsToNat ip.1 : Int) else (digitsToNat ip.1 : Int)),
          ip.2)

def parseNumber (l : List Nat) : Option (Json × List Nat) :=
  match l with
  | [] => none
  | b :: r =>
    if b = 45 then parseNumAfterSign true r
    else parseNumAfterSign false (b :: r)

/-- Parsing mode: one JSON value, the members of an object after `{ ws`
(at least one member), or the elements of an array after `[ ws` (at
least one element). -/
inductive JMode where
  | value
  | members
  | elems

/-- The recursive core of the grammar.  The fuel only bounds the
recursion depth (one unit per nested value, member or element, each of
which consumes input), so any fuel of at least twice the input length
behaves as no bound at all.  In `value` mode the input starts at a
value (whitespace already skipped by the caller); `members`/`elems`
mode returns the enclosing `.obj`/`.arr`. -/
def parseCore : Nat → JMode → List Nat → Option (Json × List Nat)
  | 0, _, _ => none
  | fuel + 1, JMode.value, l =>
    match l with
    | [] => none
    | b :: r =>
      if b = 123 then
        match skipWs r with
        | [] => none
        | c :: r2 =>
          if c = 125 then some (.obj [], r2)
          else parseCore fuel JMode.members (c :: r2)
      else if b = 91 then
        match skipWs r with
        | [] => none
        | c :: r2 =>
          if c = 93 then some (.arr [], r2)
          else parseCore fuel JMode.elems (c :: r2)
      else if b = 34 then (takeStr r).map (fun p => (Json.str p.1, p.2))
      else if (b :: r).take 4 = [110, 117, 108, 108] then
        some (.null, (b :: r).drop 4)
      else if (b :: r).take 4 = [116, 114, 117, 101] then
        some (.bool true, (b :: r).drop 4)
      else if (b :: r).take 5 = [102, 97, 108, 115, 101] then
        some (.bool false, (b :: r).drop 5)
      else parseNumber (b :: r)
  | fuel + 1, JMode.members, l =>
    match l with
    | [] => none
    | b :: r =>
      if b = 34 then
        match takeStr r with
        | none => none
        | some kp =>
          match skipWs kp.2 with
          | [] => none
          | c :: r2 =>
            if c = 58 then
              match parseCore fuel JMode.value (skipWs r2) with
              | none => none
              | some vp =>
                match skipWs vp.2 with
                | [] => none
                | d :: r4 =>
                  if d = 44 then
                    match parseCore fuel JMode.members (skipWs r4) with
                    | some (.obj ms, r5) => some (.obj ((kp.1, vp.1) :: ms), r5)
                    | _ => none
                  else if d = 125 then some (.obj [(kp.1, vp.1)], r4)
                  else none
            else none
      else none
  | fuel + 1, JMode.elems, l =>
    match parseCore fuel JMode.value l with
    | none => none
    | some vp =>
      match skipWs vp.2 with
      | [] => none
      | d :: r2 =>
        if d = 44 then
          match parseCore fuel JMode.elems (skipWs r2) with
          | some (.arr es, r3) => some (.arr (vp.1 :: es), r3)
          | _ => none
        else if d = 93 then some (.arr [vp.1], r2)
        else none

def parseTop (l : List Nat) : Option (Json × List Nat) :=
  parseCore (2 * l.length + 2) JMode.value (skipWs l)

/-- Model of `JSON.parse(data.toString())`: the whole payload must be
one JSON value (plus trailing whitespace); `none` models a thrown
SyntaxError. -/
def jsonParse (l : List Nat) : Option Json :=
  match parseTop l with
  | some vr => if skipWs vr.2 = [] then some vr.1 else none
  | none => none

/-- Association lookup among object members; as in `JSON.parse`, the
last of duplicate keys wins. -/
def lookupKey : List (List Nat × Json) → List Nat → Option Json
  | [], _ => none
  | kv :: rest, k =>
    match lookupKey rest k with
    | some v => some v
    | none => if kv.1 = k then some kv.2 else none

/-- JavaScript member access `v.k` on a parsed JSON value: throws
(`.error`) on `null`, yields `undefined` (`none`) on other primitives,
on arrays, and on objects lacking the key. -/
def jsGetField (v : Json) (k : List Nat) : Except Unit (Option Json) :=
  match v with
  | .null => .error ()
  | .obj ms => .ok (lookupKey ms k)
  | _ => .ok none

/-- The byte strings of the metadata record's keys and tag. -/
def keyType : List Nat := [116, 121, 112, 101]
def keyName : List Nat := [110, 97, 109, 101]
def keySize : List Nat := [115, 105, 122, 101]
def strMetadata : List Nat := [109, 101, 116, 97, 100, 97, 116, 97]

/-- `message.type === 'metadata'`: strict equality holds exactly when
the field is a string with those code units. -/
def isMetadataTag : Option Json → Bool
  | some (.str s) => decide (s = strMetadata)
  | _ => false

/-! ## Receiver state and data handler -/

/-- Receiver-side refs and state from `App.jsx`:
`receivingFileName`, `totalFileSizeRef`, `receivedBytesRef`,
`fileChunksRef`, `receiving`, and the assembled artifact
(`completedFileUrl` blob contents).  `totalFileSize = none` models a
recorded size against which the completion comparison is never true
(the JavaScript value `undefined`, and — outside every claim — any
non-integer size value, which no constructible transfer of this
protocol produces). -/
structure RecvState where
  receivingFileName : Option Json
  totalFileSize : Option Int
  receivedBytes : Nat
  fileChunks : List (List Nat)
  receiving : Bool
  assembled : Option (List Nat)

/-- Initial refs: `useRef(0)`, `useRef([])`, `useState('')`. -/
def initRecvState : RecvState :=
  { receivingFileName := some (.str [])
    totalFileSize := some 0
    receivedBytes := 0
    fileChunks := []
    receiving := false
    assembled := none }

/-- `receivedBytesRef.current >= totalFileSizeRef.current`. -/
def reachedTotal (total : Option Int) (rb : Nat) : Bool :=
  match total with
  | some z => decide (z ≤ (rb : Int))
  | none => false

/-- The `catch` branch of `peer.on('data')`: push the chunk, bump the
byte counter, and when the announced total is reached assemble the file
(`assembleAndDownloadFile` concatenates the buffered chunks and leaves
the buffers in place). -/
def chunkBranch (st : RecvState) (data : List Nat) : RecvState :=
  let chunks := st.fileChunks ++ [data]
  let rb := st.receivedBytes + data.length
  if reachedTotal st.totalFileSize rb then
    { st with fileChunks := chunks, receivedBytes := rb,
              assembled := some chunks.flatten, receiving := false }
  else
    { st with fileChunks := chunks, receivedBytes := rb }

/-- The `message.type === 'metadata'` branch: record name and size,
reset the transfer counters and the chunk buffer. -/
def metaBranch (st : RecvState) (ms : List (List Nat × Json)) : RecvState :=
  { st with
      receivingFileName := lookupKey ms keyName
      totalFileSize :=
        match lookupKey ms keySize with
        | some (.num z) => some z
        | _ => none
      receivedBytes := 0
      fileChunks := []
      receiving := true }

/-- The `peer.on('data')` handler. -/
def onData (st : RecvState) (data : List Nat) : RecvState :=
  match jsonParse data with
  | none => chunkBranch st data
  | some m =>
    match jsGetField m keyType with
    | .error _ => chunkBranch st data
    | .ok t =>
      if isMetadataTag t then
        match m with
        | .obj ms => metaBranch st ms
        | _ => st
      else st

/-- Process a sequence of inbound data payloads in order. -/
def recvRun (st : RecvState) (payloads : List (List Nat)) : RecvState :=
  payloads.foldl onData st

/-- A payload lands in the raw-chunk branch exactly when parsing fails
or the parsed value is `null` (whose `.type` access throws). -/
def handledAsChunk (p : List Nat) : Bool :=
  match jsonParse p with
  | none => true
  | some .null => true
  | some _ => false

/-! ## Sender-side payloads -/

/-- Decimal digit bytes of `n`, most significant first (the model of the
number serialization inside `JSON.stringify`). -/
def natToDigitsF : Nat → Nat → List Nat
  | 0, _ => []
  | fuel + 1, n =>
    if n < 10 then [48 + n]
    else natToDigitsF fuel (n / 10) ++ [48 + n % 10]

def natToDigits (n : Nat) : List Nat := natToDigitsF (n + 1) n

/-- The serialized metadata message
`JSON.stringify({type: 'metadata', name, size})`. -/
def metaBytes (name : List Nat) (size : Nat) : List Nat :=
  [123] ++ (34 :: keyType ++ [34]) ++ [58] ++ (34 :: strMetadata ++ [34])
    ++ [44] ++ (34 :: keyName ++ [34]) ++ [58] ++ (34 :: name ++ [34])
    ++ [44] ++ (34 :: keySize ++ [34]) ++ [58] ++ natToDigits size ++ [125]

/-- The JSON value the metadata message denotes. -/
def metaJson (name : List Nat) (size : Nat) : Json :=
  .obj [(keyType, .str strMetadata), (keyName, .str name), (keySize, .num size)]

/-- The sequence of data-channel payloads one `sendFileDirectly(file)`
produces: the metadata message followed by the chunks in offset order. -/
def senderPayloads (name : List Nat) (data : List Nat) : List (List Nat) :=
  metaBytes name data.length :: chunkFile CHUNK_SIZE data

/-! ## Connection state machine

State fields mirror `App.jsx`: `connectionState`, `peerRef.current`
(presence only), `reconnectAttemptsRef`, `isReconnectingRef`,
`reconnectTimeoutRef` (pending recreation), `isInitiator`, and the
ICE candidate bookkeeping (`iceCandidateQueueRef`,
`remoteDescriptionSetRef`).  `scheduledCount` is a ghost counter of how
many reconnection attempts have been scheduled. -/

inductive CState where
  | disconnected
  | signaling
  | connecting
  | connected
  | reconnecting
  | failed
deriving DecidableEq, Repr

inductive Role where
  | responder
  | initiator
deriving DecidableEq, Repr

/-- An inbound signal: a session description (offer/answer) or an ICE
connectivity candidate, tagged with an identifier. -/
inductive Sig where
  | desc (id : Nat)
  | cand (id : Nat)
deriving DecidableEq, Repr

structure AppState where
  connectionState : CState
  peer : Bool
  reconnectAttempts : Nat
  isReconnecting : Bool
  timerPending : Bool
  scheduledCount : Nat
  role : Role
  iceQueue : List Sig
  remoteDescSet : Bool
deriving DecidableEq, Repr

/-- `peerRef.current.destroy(); peerRef.current = null;` (idempotent). -/
def destroyPeer (st : AppState) : AppState := { st with peer := false }

/-- `attemptReconnection` from `App.jsx` (lines 207-225): give up into
`FAILED` at the attempt cap, otherwise bump the counter, mark
reconnecting, and schedule `createPeer` after `RECONNECT_DELAY`. -/
def attemptReconnection (st : AppState) : AppState :=
  if MAX_RECONNECT_ATTEMPTS ≤ st.reconnectAttempts then
    { st with connectionState := .failed, isReconnecting := false }
  else
    { st with
        reconnectAttempts := st.reconnectAttempts + 1
        isReconnecting := true
        connectionState := .reconnecting
        timerPending := true
        scheduledCount := st.scheduledCount + 1 }

/-- The value the peer handlers read for `connectionState`.  The socket
handlers are registered in the mount-only `useEffect` (empty dependency
array), so the `createPeer` they invoke — and the peer event handlers
it installs, and `attemptReconnection`, which re-invokes that same
`createPeer` — are the first render's closures and read the first
render's `connectionState` binding: `DISCONNECTED`, forever.
`setConnectionState` changes what later renders (and the UI) display,
never what these closures read.  The refs (`peerRef`,
`reconnectAttemptsRef`, `isReconnectingRef`, `iceCandidateQueueRef`,
`reconnectTimeoutRef`) are mutable cells and always current. -/
def capturedConnectionState : CState := .disconnected

/-- `peer.on('error')` (lines 322-342): the guard
`connectionState === ConnectionState.CONNECTED` compares the stale
captured value, which is never `CONNECTED`, so the early return is dead
and the handler always destroys the peer and, unless
`isReconnectingRef` is set, calls `attemptReconnection`. -/
def onPeerError (st : AppState) : AppState :=
  if capturedConnectionState = .connected then st
  else
    let st1 := destroyPeer st
    if st1.isReconnecting then st1 else attemptReconnection st1

/-- `peer.on('close')` (lines 345-366): `oldState` is the stale
captured `connectionState`, never `CONNECTED` or `CONNECTING`, so the
reconnect branch is dead and the handler always just records
`DISCONNECTED` (leaving the peer reference in place). -/
def onPeerClose (st : AppState) : AppState :=
  if capturedConnectionState = .connected ∨ capturedConnectionState = .connecting then
    let st1 := destroyPeer st
    if st1.isReconnecting then st1 else attemptReconnection st1
  else { st with connectionState := .disconnected }

/-- The scheduled `createPeer(initiator, socket)` firing after the
reconnect delay: a fresh link with the ICE bookkeeping reset (lines
227-243); the stored role is passed through unchanged. -/
def onReconnectTimer (st : AppState) : AppState :=
  if st.timerPending then
    { st with timerPending := false, peer := true,
              iceQueue := [], remoteDescSet := false }
  else st

/-- `peer.on('connect')`: `CONNECTED`, counters reset, pending timer
cleared. -/
def onPeerConnect (st : AppState) : AppState :=
  { st with connectionState := .connected, reconnectAttempts := 0,
            isReconnecting := false, timerPending := false }

/-- The Leave button `onClick` (lines 665-684): destroy the link, go to
`DISCONNECTED`, zero the reconnection counters and cancel the pending
timer.  The handler does not touch `iceCandidateQueueRef` or
`remoteDescriptionSetRef`. -/
def onLeave (st : AppState) : AppState :=
  { st with peer := false, connectionState := .disconnected,
            reconnectAttempts := 0, isReconnecting := false,
            timerPending := false }

/-- `handlePeerDisconnection` (lines 191-205), run on the rendezvous
`user-disconnected` event: `DISCONNECTED`, link destroyed, candidate
queue and description flag reset (reconnection counters untouched). -/
def handlePeerDisconnection (st : AppState) : AppState :=
  { st with connectionState := .disconnected, peer := false,
            iceQueue := [], remoteDescSet := false }

inductive AppEvent where
  | peerError
  | peerClose
  | reconnectTimer
  | peerConnect
  | leave
  | userDisconnected
deriving DecidableEq, Repr

def step (st : AppState) : AppEvent → AppState
  | .peerError => onPeerError st
  | .peerClose => onPeerClose st
  | .reconnectTimer => onReconnectTimer st
  | .peerConnect => onPeerConnect st
  | .leave => onLeave st
  | .userDisconnected => handlePeerDisconnection st

def runEvents (st : AppState) (evs : List AppEvent) : AppState :=
  evs.foldl step st

/-- A freshly connected session (after `peer.on('connect')`). -/
def connectedState (r : Role) : AppState :=
  { connectionState := .connected
    peer := true
    reconnectAttempts := 0
    isReconnecting := false
    timerPending := false
    scheduledCount := 0
    role := r
    iceQueue := []
    remoteDescSet := false }

/-! ## Inbound signal handling (`newSocket.on('signal')`, lines 131-172)

The handler first calls `peerRef.current.signal(signal)` on every
inbound signal, then, for a description, sets
`remoteDescriptionSetRef` and flushes the queued candidates through
`peerRef.current.signal` in arrival order, and finally, for a candidate
arriving with the description flag still unset, appends the signal to
`iceCandidateQueueRef`.  `applied` records the sequence of
`peer.signal(...)` calls. -/

structure SigState where
  queue : List Sig
  remoteDescSet : Bool
  applied : List Sig
deriving DecidableEq, Repr

def initSigState : SigState := { queue := [], remoteDescSet := false, applied := [] }

def onSignal (st : SigState) (sig : Sig) : SigState :=
  let st1 := { st with applied := st.applied ++ [sig] }
  let st2 :=
    match sig with
    | .desc _ =>
      { st1 with remoteDescSet := true,
                 applied := st1.applied ++ st1.queue, queue := [] }
    | .cand _ => st1
  match sig with
  | .cand _ =>
    if st2.remoteDescSet then st2
    else { st2 with queue := st2.queue ++ [sig] }
  | .desc _ => st2

def runSignals (st : SigState) (sigs : List Sig) : SigState :=
  sigs.foldl onSignal st

/-! ## Role assignment

Server `socket.on('join-room')` adds the joiner to the room's member
set and sends it `roomMembers.filter(id !== socket.id)`; the client's
`room-users` handler picks Initiator exactly when that list is empty. -/

/-- The membership snapshot the server emits to `joiner` when it joins a
room whose member set currently holds `members` (socket ids are
distinct, and the joiner is added before the list is built). -/
def snapshotFor (members : List Nat) (joiner : Nat) : List Nat :=
  (members ++ [joiner]).filter (fun id => id ≠ joiner)

/-- The `room-users` handler: `users.length > 0` means Responder,
otherwise Initiator. -/
def roleOf (users : List Nat) : Role :=
  if 0 < users.length then .responder else .initiator

/-! ## Sender chunk loop trace (`sendNextChunk`, lines 488-563)

For each chunk the loop calls `peerRef.current.write(chunk)`; on a
`true` result it schedules itself via `setTimeout(sendNextChunk, 0)`
(yielding control), on `false` it waits for the one-shot `drain` event
and only then re-enters the loop.  `res k` is the boolean `write`
returned for chunk `k`; the trace records the actions in order for a
run of `n` chunks starting at index `k`. -/

inductive SendAction where
  | write (k : Nat)
  | yieldStep
  | waitDrain
  | drained
deriving DecidableEq, Repr

def sendTrace (res : Nat → Bool) : Nat → Nat → List SendAction
  | _, 0 => []
  | k, n + 1 =>
    .write k ::
      (if res k then SendAction.yieldStep :: sendTrace res (k + 1) n
       else SendAction.waitDrain :: SendAction.drained :: sendTrace res (k + 1) n)

/-! ## Receiver lemmas -/

theorem chunkBranch_totalFileSize (st : RecvState) (d : List Nat) :
    (chunkBranch st d).totalFileSize = st.totalFileSize := by
  simp only [chunkBranch]
  split <;> rfl

theorem chunkBranch_fileChunks (st : RecvState) (d : List Nat) :
    (chunkBranch st d).fileChunks = st.fileChunks ++ [d] := by
  simp only [chunkBranch]
  split <;> rfl

theorem chunkBranch_receivedBytes (st : RecvState) (d : List Nat) :
    (chunkBranch st d).receivedBytes = st.receivedBytes + d.length := by
  simp only [chunkBranch]
  split <;> rfl

/-- A payload satisfying `handledAsChunk` is processed by the `catch`
branch of the data handler. -/
theorem onData_chunk (st : RecvState) (p : List Nat)
    (hp : handledAsChunk p = true) : onData st p = chunkBranch st p := by
  have h' := hp
  unfold handledAsChunk at h'
  unfold onData
  cases hpar : jsonParse p with
  | none => rfl
  | some m =>
    rw [hpar] at h'
    cases m with
    | null => rfl
    | bool b => simp at h'
    | num z => simp at h'
    | numNonInt lit => simp at h'
    | str s => simp at h'
    | arr es => simp at h'
    | obj ms => simp at h'

/-- When the byte counter has already reached the announced total, a
further chunk triggers (re-)assembly. -/
theorem chunkBranch_reached (st : RecvState) (d : List Nat) (S : Int)
    (hS : st.totalFileSize = some S)
    (hle : S ≤ ((st.receivedBytes + d.length : Nat) : Int)) :
    chunkBranch st d =
      { st with fileChunks := st.fileChunks ++ [d],
                receivedBytes := st.receivedBytes + d.length,
                assembled := some ((st.fileChunks ++ [d]).flatten),
                receiving := false } := by
  have hreach : reachedTotal st.totalFileSize (st.receivedBytes + d.length) = true := by
    rw [hS]
    simp only [reachedTotal, decide_eq_true_eq]
    exact hle
  simp only [chunkBranch, hreach, if_true]

/-- Folding a nonempty run of raw chunks whose total length reaches the
announced total ends with the concatenation of all buffered chunks
assembled (regardless of where along the run the total was first
reached, since `assembleAndDownloadFile` does not clear the buffer). -/
theorem recvRun_chunks :
    ∀ (cs : List (List Nat)) (st : RecvState) (S : Int),
      st.totalFileSize = some S →
      (∀ p ∈ cs, handledAsChunk p = true) →
      cs ≠ [] →
      S ≤ (st.receivedBytes : Int) + (((cs.map List.length).sum : Nat) : Int) →
      (recvRun st cs).assembled = some ((st.fileChunks ++ cs).flatten) := by
  intro cs
  induction cs with
  | nil => intro st S _ _ hne _; exact absurd rfl hne
  | cons c cs ih =>
    intro st S hS hall hne hsum
    have hc : handledAsChunk c = true := hall c (by simp)
    by_cases hcs : cs = []
    · subst hcs
      have hrun : recvRun st [c] = chunkBranch st c := by
        simp [recvRun, onData_chunk st c hc]
      have hle : S ≤ ((st.receivedBytes + c.length : Nat) : Int) := by
        simp only [List.map_cons, List.map_nil, List.sum_cons, List.sum_nil] at hsum
        push_cast at hsum ⊢
        omega
      rw [hrun, chunkBranch_reached st c S hS hle]
    · have hrun : recvRun st (c :: cs) = recvRun (chunkBranch st c) cs := by
        simp only [recvRun, List.foldl_cons, onData_chunk st c hc]
      rw [hrun]
      have h1 : (chunkBranch st c).totalFileSize = some S := by
        rw [chunkBranch_totalFileSize]; exact hS
      have hsum' : S ≤ ((chunkBranch st c).receivedBytes : Int)
          + ((((cs.map List.length).sum : Nat)) : Int) := by
        rw [chunkBranch_receivedBytes]
        simp only [List.map_cons, List.sum_cons] at hsum
        push_cast at hsum ⊢
        omega
      have := ih (chunkBranch st c) S h1
        (fun p hp => hall p (by simp [hp])) hcs hsum'
      rw [this, chunkBranch_fileChunks]
      simp

/-- Receiving a well-formed metadata message resets the transfer state
and records name and size. -/
theorem onData_meta (st : RecvState) (name : List Nat) (size : Nat)
    (hmeta : jsonParse (metaBytes name size) = some (metaJson name size)) :
    onData st (metaBytes name size) =
      { st with receivingFileName := some (.str name),
                totalFileSize := some (size : Int),
                receivedBytes := 0, fileChunks := [], receiving := true } := by
  unfold onData
  rw [hmeta]
  simp [metaJson, jsGetField, metaBranch, lookupKey, isMetadataTag, keyType,
    keyName, keySize, strMetadata]

/-- A full well-classified transfer (metadata followed by the chunks of
a nonempty file) leaves the original bytes assembled, from any starting
receiver state. -/
theorem recvRun_transfer (st : RecvState) (name data : List Nat)
    (hne : data ≠ [])
    (hmeta : jsonParse (metaBytes name data.length)
      = some (metaJson name data.length))
    (hchunks : ∀ p ∈ chunkFile CHUNK_SIZE data, handledAsChunk p = true) :
    (recvRun st (senderPayloads name data)).assembled = some data := by
  have hc : 1 ≤ CHUNK_SIZE := by norm_num [CHUNK_SIZE]
  have hstep : recvRun st (senderPayloads name data)
      = recvRun (onData st (metaBytes name data.length)) (chunkFile CHUNK_SIZE data) := rfl
  rw [hstep, onData_meta st name data.length hmeta]
  have := recvRun_chunks (chunkFile CHUNK_SIZE data)
    { st with receivingFileName := some (.str name),
              totalFileSize := some (data.length : Int),
              receivedBytes := 0, fileChunks := [], receiving := true }
    (data.length : Int) rfl hchunks (chunkFile_ne_nil _ _ hne)
    (by rw [chunkFile_sum_length _ _ hc]; simp)
  rw [this]
  simp [chunkFile_join _ _ hc]

/-! ## Sender trace lemmas -/

theorem sendTrace_succ (res : Nat → Bool) (k n : Nat) :
    sendTrace res k (n + 1)
      = .write k ::
          (if res k then SendAction.yieldStep :: sendTrace res (k + 1) n
           else SendAction.waitDrain :: SendAction.drained :: sendTrace res (k + 1) n) := by
  rw [sendTrace]

/-- Between any occurrence of `write k` with a `false` write result and
any later occurrence of `write (k+1)`, the trace observes a drain
notification. -/
theorem sendTrace_sep (res : Nat → Bool) :
    ∀ (n k m i j : Nat), res m = false → i < j →
      (sendTrace res k n)[i]? = some (SendAction.write m) →
      (sendTrace res k n)[j]? = some (SendAction.write (m + 1)) →
      ∃ d, i < d ∧ d < j ∧ (sendTrace res k n)[d]? = some SendAction.drained := by
  intro n
  induction n with
  | zero =>
    intro k m i j _ _ hi _
    simp [sendTrace] at hi
  | succ n ih =>
    intro k m i j hm hij hi hj
    cases hres : res k with
    | true =>
      rw [sendTrace_succ, if_pos hres] at hi hj ⊢
      rcases i with _ | _ | i
      · simp at hi
        subst hi
        rw [hres] at hm
        exact absurd hm (by simp)
      · simp at hi
      · obtain ⟨j', rfl⟩ : ∃ j', j = j' + 2 := ⟨j - 2, by omega⟩
        simp only [List.getElem?_cons_succ] at hi hj
        obtain ⟨d, hd1, hd2, hd3⟩ := ih (k + 1) m i j' hm (by omega) hi hj
        exact ⟨d + 2, by omega, by omega, by simpa using hd3⟩
    | false =>
      rw [sendTrace_succ, if_neg (by simp [hres])] at hi hj ⊢
      rcases i with _ | _ | _ | i
      · simp at hi
        subst hi
        rcases j with _ | _ | _ | j
        · omega
        · simp at hj
        · simp at hj
        · exact ⟨2, by omega, by omega, by simp⟩
      · simp at hi
      · simp at hi
      · obtain ⟨j', rfl⟩ : ∃ j', j = j' + 3 := ⟨j - 3, by omega⟩
        simp only [List.getElem?_cons_succ] at hi hj
        obtain ⟨d, hd1, hd2, hd3⟩ := ih (k + 1) m i j' hm (by omega) hi hj
        exact ⟨d + 3, by omega, by omega, by simpa using hd3⟩

/-- After a `true` write result the next chunk follows immediately,
separated only by the yield of control. -/
theorem sendTrace_decomp (res : Nat → Bool) :
    ∀ (n k m : Nat), k ≤ m → m + 1 < k + n → res m = true →
      ∃ pre suf, sendTrace res k n
        = pre ++ SendAction.write m :: SendAction.yieldStep
            :: SendAction.write (m + 1) :: suf := by
  intro n
  induction n with
  | zero => intro k m h1 h2 _; omega
  | succ n ih =>
    intro k m hkm hlt hres
    by_cases hk : k = m
    · subst hk
      obtain ⟨n', rfl⟩ : ∃ n', n = n' + 1 := ⟨n - 1, by omega⟩
      refine ⟨[], if res (k + 1) then SendAction.yieldStep :: sendTrace res (k + 1 + 1) n'
          else SendAction.waitDrain :: SendAction.drained :: sendTrace res (k + 1 + 1) n', ?_⟩
      rw [sendTrace_succ, if_pos hres, sendTrace_succ]
      simp
    · have hkm' : k + 1 ≤ m := by omega
      obtain ⟨pre, suf, he⟩ := ih (k + 1) m hkm' (by omega) hres
      cases hres2 : res k with
      | true =>
        refine ⟨SendAction.write k :: SendAction.yieldStep :: pre, suf, ?_⟩
        rw [sendTrace_succ, if_pos hres2, he]
        simp
      | false =>
        refine ⟨SendAction.write k :: SendAction.waitDrain :: SendAction.drained :: pre,
          suf, ?_⟩
        rw [sendTrace_succ, if_neg (by simp [hres2]), he]
        simp

/-! ## Connection state machine lemmas -/

theorem attemptReconnection_role (st : AppState) :
    (attemptReconnection st).role = st.role := by
  unfold attemptReconnection
  split <;> rfl

/-- No event handler writes `isInitiator`: the role assigned at join
time survives every later event, including reconnection attempts. -/
theorem step_role (st : AppState) (e : AppEvent) : (step st e).role = st.role := by
  cases e with
  | peerError =>
    simp only [step, onPeerError, destroyPeer]
    split
    · rfl
    · split
      · rfl
      · exact attemptReconnection_role _
  | peerClose =>
    simp only [step, onPeerClose, destroyPeer]
    split
    · split
      · rfl
      · exact attemptReconnection_role _
    · rfl
  | reconnectTimer =>
    simp only [step, onReconnectTimer]
    split <;> rfl
  | peerConnect => rfl
  | leave => rfl
  | userDisconnected => rfl

theorem runEvents_role (st : AppState) (evs : List AppEvent) :
    (runEvents st evs).role = st.role := by
  induction evs generalizing st with
  | nil => rfl
  | cons e evs ih =>
    have h : runEvents st (e :: evs) = runEvents (step st e) evs := rfl
    rw [h, ih (step st e), step_role]

/-- The invariant explaining why the `FAILED` branch of
`attemptReconnection` is dead code: `isReconnectingRef` is cleared only
on success, so `attemptReconnection` only ever runs with a zero attempt
counter. -/
def ReconnInv (st : AppState) : Prop :=
  (st.isReconnecting = false → st.reconnectAttempts = 0)
    ∧ st.reconnectAttempts ≤ 1 ∧ st.connectionState ≠ .failed

theorem step_reconnInv (st : AppState) (e : AppEvent) (h : ReconnInv st) :
    ReconnInv (step st e) := by
  obtain ⟨h1, h2, h3⟩ := h
  cases e with
  | peerError =>
    simp only [step, onPeerError, destroyPeer]
    split
    · exact ⟨h1, h2, h3⟩
    · split
      · exact ⟨h1, h2, h3⟩
      · next hrec =>
        have h0 : st.reconnectAttempts = 0 := h1 (by simpa using hrec)
        unfold attemptReconnection
        rw [if_neg (by simp [h0, MAX_RECONNECT_ATTEMPTS])]
        exact ⟨by simp, by simp [h0], by simp⟩
  | peerClose =>
    simp only [step, onPeerClose, destroyPeer]
    split
    · split
      · exact ⟨h1, h2, h3⟩
      · next hrec =>
        have h0 : st.reconnectAttempts = 0 := h1 (by simpa using hrec)
        unfold attemptReconnection
        rw [if_neg (by simp [h0, MAX_RECONNECT_ATTEMPTS])]
        exact ⟨by simp, by simp [h0], by simp⟩
    · exact ⟨h1, h2, by simp⟩
  | reconnectTimer =>
    simp only [step, onReconnectTimer]
    split
    · exact ⟨h1, h2, h3⟩
    · exact ⟨h1, h2, h3⟩
  | peerConnect =>
    exact ⟨by simp [step, onPeerConnect], by simp [step, onPeerConnect],
      by simp [step, onPeerConnect]⟩
  | leave =>
    exact ⟨by simp [step, onLeave], by simp [step, onLeave], by simp [step, onLeave]⟩
  | userDisconnected =>
    exact ⟨h1, h2, by simp [step, handlePeerDisconnection]⟩

/-- From any state satisfying the invariant (in particular from a fresh
or freshly connected session) no event sequence can reach `FAILED`. -/
theorem runEvents_not_failed (st : AppState) (evs : List AppEvent)
    (h : ReconnInv st) : (runEvents st evs).connectionState ≠ .failed := by
  suffices hinv : ReconnInv (runEvents st evs) from hinv.2.2
  induction evs generalizing st with
  | nil => exact h
  | cons e evs ih => exact ih (step st e) (step_reconnInv st e h)

theorem handledAsChunk_seven (rest : List Nat) :
    handledAsChunk (7 :: rest) = true := rfl

theorem handledAsChunk_replicate_seven (m : Nat) (hm : 0 < m) :
    handledAsChunk (List.replicate m 7) = true := by
  cases m with
  | zero => omega
  | succ m =>
    rw [List.replicate_succ]
    exact handledAsChunk_seven _

/-! ## Claims -/

/-- C1 (corrected), counterexample: the round-trip law fails as stated.
For the empty file (size 0) the completion check lives inside the
chunk-receipt branch and no chunk ever arrives, so no artifact is
assembled; and for the nonempty file whose bytes are exactly a
serialized metadata record, the single chunk is classified as metadata
and the transfer stalls with no artifact. -/
theorem C1_counterexample :
    (recvRun initRecvState (senderPayloads [97] [])).assembled = none ∧
    metaBytes [97] 1 ≠ [] ∧
    (recvRun initRecvState (senderPayloads [98] (metaBytes [97] 1))).assembled
      = none :=
  ⟨rfl, by decide, rfl⟩

/-- C1 (amended): for every nonempty file whose metadata message parses
back to the metadata record and whose chunks are all handled by the
raw-chunk branch of the receiver, the transfer (metadata followed by
the chunks at `CHUNK_SIZE` offsets, reassembled in receipt order once
the received bytes reach the announced total) reproduces the original
byte sequence exactly, and re-running the same transfer (on a fresh
receiver state it is the same pure function, and even on the used
receiver state) yields the same artifact. -/
theorem C1_round_trip (name data : List Nat)
    (hne : data ≠ [])
    (hmeta : jsonParse (metaBytes name data.length)
      = some (metaJson name data.length))
    (hchunks : ∀ p ∈ chunkFile CHUNK_SIZE data, handledAsChunk p = true) :
    (recvRun initRecvState (senderPayloads name data)).assembled = some data ∧
    (recvRun (recvRun initRecvState (senderPayloads name data))
        (senderPayloads name data)).assembled = some data :=
  ⟨recvRun_transfer initRecvState name data hne hmeta hchunks,
   recvRun_transfer _ name data hne hmeta hchunks⟩

/-- Witness for C1 at the 3-byte file `[7, 8, 9]`. -/
theorem C1_round_trip_witness :
    (recvRun initRecvState (senderPayloads [97] [7, 8, 9])).assembled
      = some [7, 8, 9] ∧
    (recvRun (recvRun initRecvState (senderPayloads [97] [7, 8, 9]))
        (senderPayloads [97] [7, 8, 9])).assembled = some [7, 8, 9] :=
  C1_round_trip [97] [7, 8, 9] (by decide) rfl (by decide)

/-- C2 (code bug): the signal handler applies every inbound signal at
line 144 before the buffering logic, so a candidate that arrives before
the description is applied to the link immediately (before the
description) and then applied a second time when the queue is flushed:
the applied-signal trace for the inbound sequence `[candidate, offer]`
is `[candidate, offer, candidate]`. -/
theorem C2_candidate_violation :
    (runSignals initSigState [Sig.cand 0, Sig.desc 1]).applied
      = [Sig.cand 0, Sig.desc 1, Sig.cand 0] ∧
    (runSignals initSigState [Sig.cand 0, Sig.desc 1]).applied.count (Sig.cand 0)
      = 2 := by
  decide

/-- C3 (corrected), counterexample: from the initial receiver state
(no metadata recorded, `totalFileSizeRef` still `0`), a stray chunk is
not dropped: it is appended to the buffer, counted, and immediately
"assembled" into a bogus artifact. -/
theorem C3_counterexample :
    (onData initRecvState [7]).fileChunks = [[7]] ∧
    (onData initRecvState [7]).receivedBytes = 1 ∧
    (onData initRecvState [7]).assembled = some [7] :=
  ⟨rfl, rfl, rfl⟩

/-- C3 (amended): a chunk payload arriving when the byte counter has
already reached the announced total (in particular with no metadata
recorded, where the total is still `0`) is not ignored: it is appended
to the chunk buffer, its length is added to the received byte count,
and assembly (re-)fires including the stray payload.  The connection
does remain usable: a subsequent well-formed transfer still assembles
its own file exactly, because fresh metadata fully resets the receiver
state. -/
theorem C3_stray_chunk (st : RecvState) (p : List Nat) (T : Int)
    (hT : st.totalFileSize = some T) (hrb : T ≤ (st.receivedBytes : Int))
    (hp : handledAsChunk p = true)
    (name data : List Nat) (hne : data ≠ [])
    (hmeta : jsonParse (metaBytes name data.length)
      = some (metaJson name data.length))
    (hchunks : ∀ q ∈ chunkFile CHUNK_SIZE data, handledAsChunk q = true) :
    (onData st p).fileChunks = st.fileChunks ++ [p] ∧
    (onData st p).receivedBytes = st.receivedBytes + p.length ∧
    (onData st p).assembled = some ((st.fileChunks ++ [p]).flatten) ∧
    (recvRun (onData st p) (senderPayloads name data)).assembled = some data := by
  have hco := onData_chunk st p hp
  have hreach := chunkBranch_reached st p T hT (by push_cast; omega)
  refine ⟨?_, ?_, ?_, recvRun_transfer (onData st p) name data hne hmeta hchunks⟩
  · rw [hco, chunkBranch_fileChunks]
  · rw [hco, chunkBranch_receivedBytes]
  · rw [hco, hreach]

/-- Witness for C3: the violating payload `[7]` at the initial state,
followed by a clean transfer of the file `[5]`. -/
theorem C3_stray_chunk_witness :
    (onData initRecvState [7]).fileChunks = initRecvState.fileChunks ++ [[7]] ∧
    (onData initRecvState [7]).receivedBytes
      = initRecvState.receivedBytes + [7].length ∧
    (onData initRecvState [7]).assembled
      = some ((initRecvState.fileChunks ++ [[7]]).flatten) ∧
    (recvRun (onData initRecvState [7]) (senderPayloads [97] [5])).assembled
      = some [5] :=
  C3_stray_chunk initRecvState [7] 0 rfl (by decide) rfl [97] [5]
    (by decide) rfl (by decide)

/-- C4 (code bug): bounded reconnection is doubly broken.  A close
while genuinely connected does not reconnect at all: the handler's
`oldState` is the stale captured `connectionState` (`DISCONNECTED`), so
it takes the else branch — state `DISCONNECTED`, peer not destroyed,
nothing scheduled.  Failures surface as error events instead, and those
schedule exactly one reconnection attempt ever: `isReconnectingRef` is
cleared only on success (or in the `FAILED` branch), so every further
error of the failing cycle is swallowed; the state stays
`RECONNECTING`, the attempt counter stays at 1, and `FAILED` is never
reached (no third failure ever reaches `attemptReconnection`). -/
theorem C4_failed_unreachable_trace :
    (onPeerClose (connectedState Role.initiator)).connectionState
      = CState.disconnected ∧
    (onPeerClose (connectedState Role.initiator)).peer = true ∧
    (onPeerClose (connectedState Role.initiator)).scheduledCount = 0 ∧
    (runEvents (connectedState Role.initiator)
        [AppEvent.peerError, AppEvent.reconnectTimer,
         AppEvent.peerError, AppEvent.peerError]).connectionState
      = CState.reconnecting ∧
    (runEvents (connectedState Role.initiator)
        [AppEvent.peerError, AppEvent.reconnectTimer,
         AppEvent.peerError, AppEvent.peerError]).scheduledCount = 1 ∧
    (runEvents (connectedState Role.initiator)
        [AppEvent.peerError, AppEvent.reconnectTimer,
         AppEvent.peerError, AppEvent.peerError]).reconnectAttempts = 1 := by
  decide

/-- C5 (confirmed): in the trace of `sendNextChunk`, if the channel
write of chunk `k` returned `false`, then between that write and the
write of chunk `k + 1` a drain notification is observed; and if it
returned `true`, the write of chunk `k + 1` follows immediately after
the yield of control. -/
theorem C5_backpressure (res : Nat → Bool) (n k : Nat) :
    (res k = false →
      ∀ i j : Nat, i < j →
        (sendTrace res 0 n)[i]? = some (SendAction.write k) →
        (sendTrace res 0 n)[j]? = some (SendAction.write (k + 1)) →
        ∃ d, i < d ∧ d < j ∧ (sendTrace res 0 n)[d]? = some SendAction.drained) ∧
    (res k = true → k + 1 < n →
      ∃ pre suf, sendTrace res 0 n
        = pre ++ SendAction.write k :: SendAction.yieldStep
            :: SendAction.write (k + 1) :: suf) := by
  constructor
  · intro h i j hij hi hj
    exact sendTrace_sep res n 0 k i j h hij hi hj
  · intro h1 h2
    exact sendTrace_decomp res n 0 k (Nat.zero_le _) (by omega) h1

/-- Witness for C5: a two-chunk run with backpressure throughout, and a
three-chunk run with a drainable channel. -/
theorem C5_backpressure_witness :
    (∃ d, 0 < d ∧ d < 3 ∧
      (sendTrace (fun _ => false) 0 2)[d]? = some SendAction.drained) ∧
    (∃ pre suf, sendTrace (fun _ => true) 0 3
      = pre ++ SendAction.write 0 :: SendAction.yieldStep
          :: SendAction.write 1 :: suf) := by
  constructor
  · exact (C5_backpressure (fun _ => false) 2 0).1 rfl 0 3 (by omega)
      (by decide) (by decide)
  · exact (C5_backpressure (fun _ => true) 3 0).2 rfl (by omega)

/-- C6 (code bug): a link error while the connection state is
`CONNECTED` is not treated as non-fatal.  The guard
`connectionState === ConnectionState.CONNECTED` reads the stale
captured value (`DISCONNECTED`) and never fires, so the handler
destroys the peer link and calls `attemptReconnection`, scheduling a
reconnection — against the claim (and the handler's own comment
"Don't reconnect if we're already connected"). -/
theorem C6_error_destroys_link :
    (onPeerError (connectedState Role.initiator)).peer = false ∧
    (onPeerError (connectedState Role.initiator)).isReconnecting = true ∧
    (onPeerError (connectedState Role.initiator)).connectionState
      = CState.reconnecting ∧
    (onPeerError (connectedState Role.initiator)).scheduledCount = 1 ∧
    onPeerError (connectedState Role.initiator)
      ≠ connectedState Role.initiator := by
  decide

/-- C7 (confirmed): the participant whose membership snapshot is empty
becomes Initiator, a participant whose snapshot shows the earlier
member becomes Responder, exactly one of the two is Initiator, and no
later event (including reconnection attempts) changes the stored
role. -/
theorem C7_role_assignment (a b : Nat) (hab : a ≠ b) (st : AppState)
    (evs : List AppEvent) :
    roleOf (snapshotFor [] a) = Role.initiator ∧
    roleOf (snapshotFor [a] b) = Role.responder ∧
    roleOf (snapshotFor [] a) ≠ roleOf (snapshotFor [a] b) ∧
    (runEvents st evs).role = st.role := by
  have h1 : snapshotFor [] a = [] := by simp [snapshotFor]
  have h2 : snapshotFor [a] b = [a] := by simp [snapshotFor, hab]
  refine ⟨?_, ?_, ?_, runEvents_role st evs⟩
  · rw [h1]; rfl
  · rw [h2]; rfl
  · rw [h1, h2]; simp [roleOf]

/-- Witness for C7 with members `0` and `1` and a reconnection cycle. -/
theorem C7_role_assignment_witness :
    roleOf (snapshotFor [] 0) = Role.initiator ∧
    roleOf (snapshotFor [0] 1) = Role.responder ∧
    roleOf (snapshotFor [] 0) ≠ roleOf (snapshotFor [0] 1) ∧
    (runEvents (connectedState Role.responder)
        [AppEvent.peerClose, AppEvent.reconnectTimer]).role
      = (connectedState Role.responder).role :=
  C7_role_assignment 0 1 (by decide) (connectedState Role.responder)
    [AppEvent.peerClose, AppEvent.reconnectTimer]

/-- C8 (confirmed): a 150000-byte file is split into exactly the chunks
of sizes 65536, 65536, 18928 in that order, and (for chunks handled by
the raw-chunk branch) the receiver assembles a 150000-byte artifact. -/
theorem C8_three_chunks (data name : List Nat) (hlen : data.length = 150000)
    (hmeta : jsonParse (metaBytes name data.length)
      = some (metaJson name data.length))
    (hchunks : ∀ p ∈ chunkFile CHUNK_SIZE data, handledAsChunk p = true) :
    (chunkFile CHUNK_SIZE data).map List.length = [65536, 65536, 18928] ∧
    ∃ art, (recvRun initRecvState (senderPayloads name data)).assembled
        = some art ∧ art.length = 150000 := by
  constructor
  · rw [chunkFile_map_length, hlen]
    decide
  · have hne : data ≠ [] := by
      intro h
      rw [h] at hlen
      simp at hlen
    exact ⟨data, recvRun_transfer initRecvState name data hne hmeta hchunks, hlen⟩

/-- Witness for C8 at the constant 150000-byte file. -/
theorem C8_three_chunks_witness :
    (chunkFile CHUNK_SIZE (List.replicate 150000 7)).map List.length
      = [65536, 65536, 18928] ∧
    ∃ art, (recvRun initRecvState
        (senderPayloads [97] (List.replicate 150000 7))).assembled = some art
      ∧ art.length = 150000 :=
  C8_three_chunks (List.replicate 150000 7) [97] (by rw [List.length_replicate])
    (by rw [List.length_replicate]; rfl)
    (by
      intro p hp
      rw [chunkFile_replicate] at hp
      have hs : chunkSizes CHUNK_SIZE 150000 = [65536, 65536, 18928] := by decide
      rw [hs] at hp
      simp only [List.map_cons, List.map_nil, List.mem_cons,
        List.not_mem_nil, or_false] at hp
      rcases hp with h | h | h <;> rw [h] <;>
        exact handledAsChunk_replicate_seven _ (by norm_num))

/-- C9 (corrected), counterexample: the Leave handler does not clear the
pending candidate queue: leaving from a state whose queue holds a
buffered candidate goes to `DISCONNECTED` with the link destroyed and
the counters cleared, but the queue still holds the candidate. -/
theorem C9_counterexample :
    (onLeave { connectedState Role.initiator with
        iceQueue := [Sig.cand 0] }).connectionState = CState.disconnected ∧
    (onLeave { connectedState Role.initiator with
        iceQueue := [Sig.cand 0] }).peer = false ∧
    (onLeave { connectedState Role.initiator with
        iceQueue := [Sig.cand 0] }).iceQueue = [Sig.cand 0] :=
  ⟨rfl, rfl, rfl⟩

/-- C9 (amended): the explicit leave action transitions to
`DISCONNECTED` with the peer link destroyed, the reconnection counters
cleared and the pending timer cancelled, but leaves the pending
candidate queue and the remote-description flag untouched (those are
only reset when a link is created or in `handlePeerDisconnection`). -/
theorem C9_leave (st : AppState) :
    (onLeave st).connectionState = CState.disconnected ∧
    (onLeave st).peer = false ∧
    (onLeave st).reconnectAttempts = 0 ∧
    (onLeave st).isReconnecting = false ∧
    (onLeave st).timerPending = false ∧
    (onLeave st).iceQueue = st.iceQueue ∧
    (onLeave st).remoteDescSet = st.remoteDescSet :=
  ⟨rfl, rfl, rfl, rfl, rfl, rfl, rfl⟩

/-- C10 (corrected), counterexample: the four-byte payload "null"
parses as JSON, has no `type` field equal to `metadata`, and yet is not
discarded: reading `.type` of `null` throws inside the `try` block, so
the payload falls into the chunk branch and is appended with the byte
counter advanced. -/
theorem C10_counterexample :
    jsonParse [110, 117, 108, 108] = some Json.null ∧
    (onData initRecvState [110, 117, 108, 108]).fileChunks
      = [[110, 117, 108, 108]] ∧
    (onData initRecvState [110, 117, 108, 108]).receivedBytes = 4 :=
  ⟨rfl, rfl, rfl⟩

/-- C10 (amended): a payload that parses as JSON and on which the
`type` member access does not throw (any parsed value except the JSON
literal `null`) and whose `type` field is not `'metadata'` is silently
discarded: the receiver state is completely unchanged. -/
theorem C10_json_non_metadata (st : RecvState) (p : List Nat) (m : Json)
    (t : Option Json) (hp : jsonParse p = some m)
    (ht : jsGetField m keyType = Except.ok t)
    (hne : isMetadataTag t = false) :
    onData st p = st := by
  unfold onData
  simp [hp, ht, hne]

/-- Witness for C10 at the payload "true". -/
theorem C10_json_non_metadata_witness :
    onData initRecvState [116, 114, 117, 101] = initRecvState :=
  C10_json_non_metadata initRecvState [116, 114, 117, 101]
    (Json.bool true) none rfl rfl rfl

end AirBridge
